import Mathlib

/-!
# Verification of the recipe bulk-import / page-parsing utilities

A shallow embedding of the logic of `bulk_mealie_import.py`,
`parse_recipe_page.py` and `bulk_parse_recipe_pages.py`, together with
theorems settling the specification claims about them.

Conventions of the embedding:
* Python strings are Lean `String`s; character-level operations work on
  `String.data` (`List Char`) so that everything reduces in the kernel.
  Case mapping is modelled for ASCII, which covers all inputs appearing in
  the claims (the Python `str.lower` agrees with `Char.toLower` on ASCII).
* The JSON documents produced by `json.loads` are modelled by the
  inductive type `JVal`; `dict` is an association list whose lookup takes
  the first matching key (Python dict keys are unique).
* Code that performs I/O (HTTP requests, file writes, model calls) is
  modelled by explicit traces of events, with the outcome of each external
  call passed in as data.
* Python exceptions are modelled with `Except String`, where the branch
  structure follows the `try`/`except` clauses of the source.
-/

/-- ASCII lower-casing of one character, as `str.lower` acts on ASCII. -/
def charLower (c : Char) : Char :=
  if 'A' ≤ c ∧ c ≤ 'Z' then Char.ofNat (c.toNat + 32) else c

/-- Lower-case a string (ASCII model of `str.lower`). -/
def lowerStr (s : String) : String :=
  String.mk (s.data.map charLower)

/-- Whether `c` is one of `a`-`z` or `0`-`9` (the character class `[a-z0-9]`). -/
def isLowerAlnum (c : Char) : Bool :=
  ('a' ≤ c && c ≤ 'z') || ('0' ≤ c && c ≤ '9')

/-- Strip leading and trailing whitespace from a character list
(`str.strip()` with no argument). -/
def trimCharList (l : List Char) : List Char :=
  ((l.dropWhile Char.isWhitespace).reverse.dropWhile Char.isWhitespace).reverse

/-- Python `str.strip()` on strings. -/
def trimStr (s : String) : String :=
  String.mk (trimCharList s.data)

/-- A JSON value as returned by `json.loads`: Python `str`, number, `bool`,
`None`, `list` and `dict` (an association list with unique keys). -/
inductive JVal where
  | str (s : String)
  | num (n : Int)
  | bool (b : Bool)
  | null
  | arr (xs : List JVal)
  | obj (fields : List (String × JVal))

/-- The outcome of locating the first `application/ld+json` script block in
an HTML text (the regex search shared by `extract_name` and
`extract_tags`) and running `json.loads` on its content:
* `absent` — the regex found no block,
* `malformed` — a block was found but `json.loads` raised `JSONDecodeError`,
* `parsed v` — `json.loads` returned the document `v`. -/
inductive LdBlock where
  | absent
  | malformed
  | parsed (v : JVal)

/-- Function `extract_name` from `bulk_mealie_import.py`: no block or a JSON decode
error yields `None`; otherwise the code runs `data.get("name")`, which on a
non-`dict` document raises `AttributeError` (only `json.JSONDecodeError`
is caught). `Except.error` models the uncaught exception. -/
def extract_name (b : LdBlock) : Except String (Option JVal) :=
  match b with
  | .absent => .ok none
  | .malformed => .ok none
  | .parsed v =>
    match v with
    | .obj fields => .ok (List.lookup "name" fields)
    | _ => .error "AttributeError: object has no attribute get"

/-- Split a character list at every `,` or `;`, keeping empty pieces —
the semantics of `re.split` with the pattern class of `[;,]`. -/
def splitDelims : List Char → List (List Char)
  | [] => [[]]
  | c :: rest =>
    if c = ',' ∨ c = ';' then
      [] :: splitDelims rest
    else
      match splitDelims rest with
      | [] => [[c]]
      | g :: gs => (c :: g) :: gs

/-- Split a keywords string on `,` and `;` and strip each piece:
`[s.strip() for s in re.split(..., keywords)]`. -/
def splitKeywords (s : String) : List String :=
  (splitDelims s.data).map (fun cs => String.mk (trimCharList cs))

/-- Function `extract_tags` from `bulk_mealie_import.py`: a string `keywords` field
is delimiter-split and trimmed, a list is returned unchanged, anything
else (including a non-`dict` document, whose `AttributeError` is caught by
the blanket `except Exception`) yields `[]`. -/
def extract_tags (b : LdBlock) : List JVal :=
  match b with
  | .absent => []
  | .malformed => []
  | .parsed v =>
    match v with
    | .obj fields =>
      match List.lookup "keywords" fields with
      | some (.str s) => (splitKeywords s).map JVal.str
      | some (.arr xs) => xs
      | _ => []
    | _ => []

/-- Helper `_canon` from `bulk_mealie_import.py`: lower-case, then keep only
`[a-z0-9]` characters. -/
def _canon (s : String) : String :=
  String.mk ((s.data.map charLower).filter isLowerAlnum)

/-- Replace every maximal run of characters outside `[a-z0-9]` by a single
underscore; the accumulator flag records whether the previous character
was part of such a run. Models `re.sub` of the pattern class complement
with one underscore on an already lower-cased string. -/
def collapseRuns : Bool → List Char → List Char
  | _, [] => []
  | inRun, c :: rest =>
    if isLowerAlnum c then c :: collapseRuns false rest
    else if inRun then collapseRuns true rest
    else '_' :: collapseRuns true rest

/-- Strip leading and trailing underscores (`.strip("_")`). -/
def trimUnderscores (l : List Char) : List Char :=
  ((l.dropWhile (· = '_')).reverse.dropWhile (· = '_')).reverse

/-- The slug derivation inlined in `process_recipe_image`
(`parse_recipe_page.py`): lower-case the name, collapse each maximal
non-alphanumeric run to one underscore, strip edge underscores. -/
def slugOf (name : String) : String :=
  String.mk (trimUnderscores (collapseRuns false (name.data.map charLower)))

/-! ## Listing Fetcher (`IndexParser` and `fetch_listing`) -/

/-- Index of the first occurrence of `pat` as a contiguous sublist of `s`
(`none` if there is none). -/
def findSub (pat : List Char) : List Char → Option Nat
  | [] => if pat.isEmpty then some 0 else none
  | c :: rest =>
    if pat.isPrefixOf (c :: rest) then some 0
    else (findSub pat rest).map (· + 1)

/-- Case-insensitive occurrence search (both sides ASCII-lowered). -/
def findSubCI (pat s : List Char) : Option Nat :=
  findSub (pat.map charLower) (s.map charLower)

/-- Drop trailing `/` characters (`str.rstrip("/")`). -/
def rstripSlash (s : String) : String :=
  String.mk ((s.data.reverse.dropWhile (· = '/')).reverse)

/-- Model of `urllib.parse.urljoin base rel` for the reference shapes the
scripts produce: a reference containing `://` is absolute and returned
as-is; a root-relative reference (leading `/`) replaces everything after
the scheme-and-host of the base; any other reference replaces the last
path segment of the base (which in `fetch_listing` always ends in `/`, so
the reference is appended to it). Dot-segments, queries and fragments are
not modelled; no claim exercises them. -/
def urljoin (base rel : String) : String :=
  let b := base.data
  if (findSub "://".data rel.data).isSome then rel
  else
    match rel.data with
    | '/' :: _ =>
      match findSub "://".data b with
      | some i =>
        let afterScheme := b.drop (i + 3)
        let hostLen := (afterScheme.takeWhile (· ≠ '/')).length
        String.mk (b.take (i + 3 + hostLen) ++ rel.data)
      | none => rel
    | _ => String.mk ((b.reverse.dropWhile (· ≠ '/')).reverse ++ rel.data)

/-- The `href` value `IndexParser.handle_starttag` reads from an anchor:
`dict(attrs).get("href", "")`, the last binding of the key winning as in a
Python `dict` built from a pair list. `html.parser` lower-cases attribute
names, modelled by lowering the supplied name. -/
def hrefOf (attrs : List (String × String)) : String :=
  match (attrs.filter (fun kv => lowerStr kv.1 = "href")).getLast? with
  | some kv => kv.2
  | none => ""

/-- The links `IndexParser` accumulates from the start tags of the index
document, in document order: for every `a` element (tag names are
lower-cased by `html.parser`), its `href` when the lower-cased `href` ends
in `.html`. -/
def indexLinks (startTags : List (String × List (String × String))) : List String :=
  ((startTags.filter (fun t => lowerStr t.1 = "a")).map (fun t => hrefOf t.2)).filter
    (fun h => ".html".data.isSuffixOf (lowerStr h).data)

/-- The resolution base `fetch_listing` builds: `index_url.rstrip("/") + "/"`. -/
def listingBase (indexUrl : String) : String :=
  rstripSlash indexUrl ++ "/"

/-- Lexicographic comparison of character lists by code point, with a
proper prefix ordered first — how Python compares two `str` values. -/
def charListLe : List Char → List Char → Bool
  | [], _ => true
  | _ :: _, [] => false
  | a :: as, b :: bs =>
    if a < b then true
    else if a = b then charListLe as bs
    else false

/-- The Python comparison `s1 <= s2` on strings. -/
def pyStrLe (a b : String) : Bool :=
  charListLe a.data b.data

/-- Function `fetch_listing` from `bulk_mealie_import.py`, with the fetched index
document represented by its start tags: resolve every collected link
against the base and sort (`sorted` compares Python strings with
`pyStrLe`). -/
def fetch_listing (indexUrl : String)
    (startTags : List (String × List (String × String))) : List String :=
  List.insertionSort (fun a b => pyStrLe a b = true)
    ((indexLinks startTags).map (fun link => urljoin (listingBase indexUrl) link))

/-! ## Catalog model, Tag-Purge (`delete_all_tagged`) -/

/-- A tag object of a catalog entry, as the JSON the server returns:
`name` and `slug` keys may each be missing (`t.get` supplies `""`). -/
structure TagObj where
  name : Option String
  slug : Option String
deriving DecidableEq, Repr

/-- A catalog entry (`item` in the scripts): its id, optional `name`, and
optional `tags` list (`item.get("tags", [])` supplies `[]`). -/
structure Item where
  id : Nat
  name : Option String
  tags : Option (List TagObj)
deriving DecidableEq, Repr

/-- The pagination loop of `delete_all_tagged`, with the remote catalog
represented as the list of remaining entries and each page request
returning the next `pageSize` of them. Returns the entries scanned, in
scan order, paired with the length of each requested page (one list entry
per `api_get` request). The loop breaks on an empty page before scanning
it, or after scanning a short page; the fuel argument only bounds the
recursion and is chosen large enough to never run out. -/
def pageLoopF : Nat → List Item → Nat → List Item × List Nat
  | 0, _, _ => ([], [])
  | fuel + 1, remaining, pageSize =>
    let items := remaining.take pageSize
    if items.length = 0 then ([], [items.length])
    else if items.length < pageSize then (items, [items.length])
    else
      let r := pageLoopF fuel (remaining.drop pageSize) pageSize
      (items ++ r.1, items.length :: r.2)

/-- The pagination loop run on a full catalog (adequate fuel). -/
def pageLoop (catalog : List Item) (pageSize : Nat) : List Item × List Nat :=
  pageLoopF (catalog.length + 1) catalog pageSize

/-- The scan-phase victim test of `delete_all_tagged`: pull `name` and
`slug` from each tag object (default `""`) and compare each canonicalized
text with the canonicalized target. -/
def isVictim (wanted : String) (it : Item) : Bool :=
  let tagObjs := it.tags.getD []
  let tagTexts := tagObjs.map (fun t => t.name.getD "") ++ tagObjs.map (fun t => t.slug.getD "")
  tagTexts.any (fun t => _canon t = wanted)

/-- The victims list `delete_all_tagged` accumulates while paginating the
catalog with page size 100. -/
def victimsOf (catalog : List Item) (tag : String) : List Item :=
  (pageLoop catalog 100).1.filter (isVictim (_canon tag))

/-- The deletion-phase search `next(t for t in item["tags"] if ...)`:
the first tag object whose canonicalized name or slug equals the
canonicalized target. -/
def matchingTag (wanted : String) (it : Item) : Option TagObj :=
  (it.tags.getD []).find?
    (fun t => _canon (t.name.getD "") = wanted || _canon (t.slug.getD "") = wanted)

/-- Function `delete_all_tagged` from `bulk_mealie_import.py` as a function of the
catalog: the ids it deletes (one `api_delete` per victim, in scan order)
and the count it reports (`len(victims)`). -/
def delete_all_tagged (catalog : List Item) (tag : String) : List Nat × Nat :=
  ((victimsOf catalog tag).map Item.id, (victimsOf catalog tag).length)

/-! ## Reconciler (`import_recipes`), per-URL event trace -/

/-- A catalog-mutating API call issued by `import_recipes`. -/
inductive MEv where
  | apiDelete (rid : Nat)
  | createFromUrl (url : String)
deriving DecidableEq, Repr

/-- The tag-filter test of the `import_recipes` loop: skip the URL when a
truthy (non-empty) `--tag` value, stripped and lower-cased, is absent
from the stripped lower-cased extracted tags (an empty tag string is
falsy in Python and disables the filter). -/
def importSkip (tags : List String) (tagFilter : Option String) : Bool :=
  match tagFilter with
  | none => false
  | some tf =>
    tf ≠ "" && !((tags.map (fun t => lowerStr (trimStr t))).contains (lowerStr (trimStr tf)))

/-- The duplicate deletions of the `import_recipes` loop: one `api_delete`
per search item whose lower-cased name equals the lower-cased recipe
name, in the order the search returned them. -/
def importDeletes (name : String) (searchItems : List Item) : List MEv :=
  (searchItems.filter (fun it => lowerStr (it.name.getD "") = lowerStr name)).map
    (fun it => MEv.apiDelete it.id)

/-- The body of the `import_recipes` loop for one recipe URL, given the
data of the external calls: the extracted name (`None` models a page with
no usable name; fetch/parse failures likewise produce no API calls), the
extracted tag strings, the optional `--tag` filter, and the entries the
search request returned. Emits the API calls in program order: one delete
per matching search item, then the `create/url` import. -/
def importStep (name? : Option String) (tags : List String) (tagFilter : Option String)
    (searchItems : List Item) (url : String) : List MEv :=
  match name? with
  | none => []
  | some name =>
    if importSkip tags tagFilter then []
    else importDeletes name searchItems ++ [MEv.createFromUrl url]

/-! ## Image Pipeline (`parse_recipe_page.py`) -/

/-- An observable step of `process_recipe_image` / `generate_menu_image`:
file writes, the image-model call, and log prints. The file names are
represented by the slug / output base they are derived from. -/
inductive PEv where
  | writeHtmlFile (slug : String)
  | writePromptFile (base : String)
  | callImageModel (prompt : String)
  | writePngFile (base : String)
  | logLine (msg : String)
deriving DecidableEq, Repr

/-- The outcome of the `client.images.generate` call (and of fetching the
returned URL): the response carried a `url`, carried `b64_json`, carried
neither, or the call raised. -/
inductive ImgOutcome where
  | urlBytes
  | b64Bytes
  | noData
  | raised
deriving DecidableEq, Repr

/-- The single-quote character, used when assembling the prompt text. -/
def squote : String := String.mk [Char.ofNat 39]

/-- Python `", ".join` / `" ".join` on a list of strings. -/
def joinStr (sep : String) : List String → String
  | [] => ""
  | [x] => x
  | x :: xs => x ++ sep ++ joinStr sep xs

/-- The text of one instruction step as the prompt builder reads it:
a plain string is kept, a `dict` contributes its `"text"` entry
(default `""`). -/
def stepText : JVal → String
  | .str t => t
  | .obj f =>
    match List.lookup "text" f with
    | some (.str t) => t
    | _ => ""
  | _ => ""

/-- Function `generate_menu_image_prompt` from `parse_recipe_page.py`: the fixed
photograph-description text around the recipe name, optional description,
joined ingredients and joined instruction steps. -/
def generate_menu_image_prompt (recipeName recipeDesc : String)
    (recipeIngredients : List String) (recipeInstructions : List JVal) : String :=
  let ingredientsStr := if recipeIngredients.isEmpty then "" else joinStr ", " recipeIngredients
  let instructionsStr := joinStr " " (recipeInstructions.map stepText)
  "High‑quality, realistic photograph of the completed dish " ++ squote ++ recipeName ++ squote ++
    ", as it would appear freshly prepared and ready to serve in a professional recipe website photo. " ++
    (if recipeDesc = "" then "" else trimStr recipeDesc ++ " ") ++
    "Show only the finished dish, attractively plated, isolated on a neutral background. " ++
    "All visible food should be fully prepared, cooked, and presented exactly as described in the recipe, " ++
    "with edible garnishes only—no text, no labels, no packaging, no kitchen tools, no hands, no inedible parts. " ++
    "Include only items from these ingredients: " ++ ingredientsStr ++ ". " ++
    "Present the food in a way that matches the steps: " ++ instructionsStr ++ ". " ++
    "The focus should be entirely on the finished, edible dish, as it would be served."

/-- Function `generate_menu_image` from `parse_recipe_page.py` as an event trace.
The prompt file is written (and its save logged) before the guarded
image-model call; then, depending on the outcome, the PNG is written or
the failure is logged (every exception from the `try` body is caught, so
the function always returns). -/
def generate_menu_image (recipeName recipeDesc : String)
    (recipeIngredients : List String) (recipeInstructions : List JVal)
    (base : String) (outcome : ImgOutcome) : List PEv :=
  let prompt := generate_menu_image_prompt recipeName recipeDesc recipeIngredients recipeInstructions
  [.writePromptFile base, .logLine "prompt saved", .callImageModel prompt] ++
    match outcome with
    | .urlBytes => [.writePngFile base, .logLine "image saved"]
    | .b64Bytes => [.writePngFile base, .logLine "image saved"]
    | .noData => [.logLine "image generation failed: no data returned"]
    | .raised => [.logLine "image generation failed: exception"]

/-- The `re.findall` of `process_recipe_image`: every non-overlapping
leftmost block starting with the literal `ld+json` script opening tag and
ending at the first following `</script>`, both matched
case-insensitively, the dot matching newlines. The fuel argument only
bounds the recursion (`s.length + 1` always suffices since every match
consumes at least the opening tag). -/
def findScriptsF (openTag closeTag : List Char) : Nat → List Char → List (List Char)
  | 0, _ => []
  | fuel + 1, s =>
    match findSubCI openTag s with
    | none => []
    | some i =>
      let afterOpen := s.drop (i + openTag.length)
      match findSubCI closeTag afterOpen with
      | none => []
      | some j =>
        (s.drop i).take (openTag.length + j + closeTag.length) ::
          findScriptsF openTag closeTag fuel (afterOpen.drop (j + closeTag.length))

/-- The script blocks found in the raw model response. -/
def findScripts (raw : String) : List (List Char) :=
  findScriptsF "<script type=\"application/ld+json\">".data "</script>".data
    (raw.data.length + 1) raw.data

/-- The inner `re.search` pulling the JSON text out of one block
(`<script[^>]*>` then a minimal stretch up to `</script>`): locate
`<script`, skip to the first `>` after it, and take the content up to the
first following `</script>`. Returns `none` when the pattern cannot match
(the warning branch of the code; never the case for blocks produced by
`findScripts`). -/
def innerOf (block : List Char) : Option (List Char) :=
  match findSubCI "<script".data block with
  | none => none
  | some i =>
    let afterTag := block.drop (i + 7)
    let skipped := afterTag.takeWhile (fun c => c ≠ '>')
    if skipped.length = afterTag.length then none
    else
      let content := afterTag.drop (skipped.length + 1)
      match findSubCI "</script>".data content with
      | none => none
      | some j => some (content.take j)

/-- Processing of one extracted script block by `process_recipe_image`,
given `json.loads` as an oracle `parse` (`none` models a raised parse
error, which the code catches and logs). A document that is not a `dict`
makes `recipe_data.get` raise outside any handler (`Except.error`), as
does a non-string `name` value reaching `name.lower()`. Otherwise the
block is re-serialized to `<slug>.html` and the hero image generated. -/
def processBlock (parse : String → Option JVal) (outcome : ImgOutcome)
    (stem : String) (block : List Char) : Except String (List PEv) :=
  match innerOf block with
  | none => .ok [.logLine "could not extract JSON-LD block"]
  | some inner =>
    match parse (trimStr (String.mk inner)) with
    | none => .ok [.logLine "error parsing JSON-LD"]
    | some v =>
      match v with
      | .obj fields =>
        match (List.lookup "name" fields).getD (.str stem) with
        | .str name =>
          let slug := slugOf name
          let desc :=
            match List.lookup "description" fields with
            | some (.str s) => s
            | _ => ""
          let ingredients :=
            match List.lookup "recipeIngredient" fields with
            | some (.arr xs) =>
              xs.map (fun x => match x with | .str s => s | _ => "")
            | _ => []
          let instructions :=
            match List.lookup "recipeInstructions" fields with
            | some (.arr xs) =>
              xs.map (fun s =>
                match s with
                | .obj f => .str (match List.lookup "text" f with
                                  | some (.str t) => t
                                  | _ => "")
                | other => other)
            | _ => []
          .ok ([.writeHtmlFile slug, .logLine "saved html"] ++
            generate_menu_image name desc ingredients instructions slug outcome)
        | _ => .error "AttributeError: name has no attribute lower"
      | _ => .error "AttributeError: object has no attribute get"

/-- Sequential processing of all blocks; an uncaught exception in one
block aborts the whole function. -/
def processBlocks (parse : String → Option JVal) (outcome : ImgOutcome)
    (stem : String) : List (List Char) → Except String (List PEv)
  | [] => .ok []
  | b :: rest =>
    match processBlock parse outcome stem b with
    | .error e => .error e
    | .ok evs =>
      match processBlocks parse outcome stem rest with
      | .error e => .error e
      | .ok evs2 => .ok (evs ++ evs2)

/-- Function `process_recipe_image` from `parse_recipe_page.py` as a trace
function of the raw model-response text: the no-recipe sentinel (compared
lower-cased against the literal) short-circuits with a log line and no
writes; a response with no script blocks likewise; otherwise every block
is processed in order. `parse` stands for `json.loads`, `outcome` for the
image-generation result, `stem` for `png_path.stem`. -/
def process_recipe_image (parse : String → Option JVal) (outcome : ImgOutcome)
    (stem : String) (rawText : String) : Except String (List PEv) :=
  if lowerStr rawText = "<no recipe>" then .ok [.logLine "no recipe detected"]
  else if (findScripts rawText).isEmpty then .ok [.logLine "no recipe scripts found"]
  else processBlocks parse outcome stem (findScripts rawText)

/-- The write events of a trace (the artifacts the run leaves on disk). -/
def writesOf (t : List PEv) : List PEv :=
  t.filter (fun e =>
    match e with
    | .writeHtmlFile _ => true
    | .writePromptFile _ => true
    | .writePngFile _ => true
    | _ => false)


/-- The Tag-Purge scenario catalog of the specification: entry 1 carries
tag name `Family`, entry 2 tag slug `family`, entry 3 tag name `Other`. -/
def familyCatalog : List Item :=
  [⟨1, none, some [⟨some "Family", none⟩]⟩,
   ⟨2, none, some [⟨none, some "family"⟩]⟩,
   ⟨3, none, some [⟨some "Other", none⟩]⟩]

/-- An index document whose anchors carry the same `.html` href twice. -/
def dupIndexTags : List (String × List (String × String)) :=
  [("a", [("href", "x.html")]), ("a", [("href", "x.html")])]

/-- A catalog of `n` identical entries, used to exercise pagination. -/
def uniformCatalog (n : Nat) : List Item :=
  List.replicate n ⟨0, none, none⟩

/-! ## Helper lemmas -/

theorem charListLe_total : ∀ as bs : List Char, charListLe as bs = true ∨ charListLe bs as = true := by
  intro as
  induction as with
  | nil => intro bs; left; rfl
  | cons a as ih =>
    intro bs
    cases bs with
    | nil => right; rfl
    | cons b bs =>
      by_cases hab : a < b
      · left; simp [charListLe, hab]
      · by_cases heq : a = b
        · subst heq
          rcases ih bs with h | h
          · left; simp [charListLe, lt_irrefl, h]
          · right; simp [charListLe, lt_irrefl, h]
        · have hba : b < a := lt_of_le_of_ne (le_of_not_lt hab) (fun e => heq e.symm)
          right; simp [charListLe, hba]

theorem charListLe_trans : ∀ as bs cs : List Char,
    charListLe as bs = true → charListLe bs cs = true → charListLe as cs = true := by
  intro as
  induction as with
  | nil => intro bs cs _ _; rfl
  | cons a as ih =>
    intro bs cs h1 h2
    cases bs with
    | nil => simp [charListLe] at h1
    | cons b bs =>
      cases cs with
      | nil => simp [charListLe] at h2
      | cons c cs =>
        simp only [charListLe] at h1 h2 ⊢
        by_cases hab : a < b
        · by_cases hbc : b < c
          · simp [lt_trans hab hbc]
          · by_cases hbc2 : b = c
            · subst hbc2; simp [hab]
            · simp [hbc, hbc2] at h2
        · by_cases hab2 : a = b
          · subst hab2
            simp only [lt_irrefl, if_false, if_pos rfl] at h1
            by_cases hbc : a < c
            · simp [hbc]
            · by_cases hbc2 : a = c
              · subst hbc2
                simp only [lt_irrefl, if_false, if_pos rfl] at h2 ⊢
                exact ih bs cs h1 h2
              · simp [hbc, hbc2] at h2
          · simp [hab, hab2] at h1

/-! ## Claim theorems -/

/-- C1 counterexample: an index whose anchors carry the href `x.html`
twice makes `fetch_listing` return the resolved URL twice — duplicates
are not removed, contrary to the claim that no URL occurs twice in the
result. -/
theorem fetch_listing_duplicates_cex :
    fetch_listing "http://host/recipes" dupIndexTags =
      ["http://host/recipes/x.html", "http://host/recipes/x.html"] ∧
    List.count "http://host/recipes/x.html" (fetch_listing "http://host/recipes" dupIndexTags) = 2 := by
  decide

/-- C1 (amended): for every index document, `fetch_listing` returns a
lexicographically sorted sequence that is a permutation of (exactly the
multiset of) the anchor hrefs ending in `.html` case-insensitively, each
resolved against the base of the index URL — duplicates are preserved, not
removed. -/
theorem fetch_listing_sorted_all_links (indexUrl : String)
    (startTags : List (String × List (String × String))) :
    List.Sorted (fun a b => pyStrLe a b = true) (fetch_listing indexUrl startTags) ∧
    List.Perm (fetch_listing indexUrl startTags)
      ((indexLinks startTags).map (fun link => urljoin (listingBase indexUrl) link)) := by
  constructor
  · haveI ht : IsTotal String (fun a b => pyStrLe a b = true) :=
      ⟨fun a b => charListLe_total a.data b.data⟩
    haveI htr : IsTrans String (fun a b => pyStrLe a b = true) :=
      ⟨fun a b c => charListLe_trans a.data b.data c.data⟩
    exact List.sorted_insertionSort _ _
  · exact List.perm_insertionSort _ _

/-- C2 counterexample: a structured-data block whose content parses to a
JSON array (for instance the common JSON-LD form of a list with one
recipe object) makes `extract_name` raise `AttributeError` instead of
returning the "no data" result, because only `json.JSONDecodeError` is
caught around `data.get("name")`. -/
theorem extract_name_raises_on_array_cex :
    extract_name (.parsed (.arr [.obj [("name", .str "X")]])) =
      .error "AttributeError: object has no attribute get" := rfl

/-- C2 (amended): `extract_name` returns the "no data" result (`None`)
when no structured-data block is found, when the block fails to parse, or
when it parses to an object with no `name` field; a block that parses to
a non-object document instead escapes with an `AttributeError`. -/
theorem extract_name_none_amended (b : LdBlock)
    (h : b = .absent ∨ b = .malformed ∨
      ∃ fields, b = .parsed (.obj fields) ∧ List.lookup "name" fields = none) :
    extract_name b = .ok none := by
  rcases h with h | h | ⟨fields, h, hl⟩ <;> subst h
  · rfl
  · rfl
  · simp [extract_name, hl]

/-- Witness for the amended C2 theorem at the no-block outcome. -/
theorem extract_name_none_amended_witness :
    extract_name .absent = .ok none :=
  extract_name_none_amended .absent (Or.inl rfl)

/-- C4: on the scenario catalog with target tag `Family`, `delete_all_tagged`
deletes exactly ids 1 and 2 (in that order), does not delete id 3, and
reports a count of 2; matching canonicalizes name and slug by
lower-casing and stripping non-alphanumerics. -/
theorem delete_all_tagged_family_scenario :
    delete_all_tagged familyCatalog "Family" = ([1, 2], 2) ∧
    (3 ∈ (delete_all_tagged familyCatalog "Family").1) = False ∧
    _canon "Family" = "family" := by
  decide

/-- C6: when the parsed structured-data block is an object whose
`keywords` field is the string `A, B ; C`, the extracted tag sequence is
exactly `A`, `B`, `C` — split on the comma/semicolon delimiters and
trimmed. -/
theorem extract_tags_split_trim (fields : List (String × JVal))
    (h : List.lookup "keywords" fields = some (.str "A, B ; C")) :
    extract_tags (.parsed (.obj fields)) = [.str "A", .str "B", .str "C"] := by
  have e : extract_tags (.parsed (.obj fields)) =
      match List.lookup "keywords" fields with
      | some (.str s) => (splitKeywords s).map JVal.str
      | some (.arr xs) => xs
      | _ => [] := rfl
  rw [e, h]
  rfl

/-- Witness for the C6 theorem at a concrete one-field document. -/
theorem extract_tags_split_trim_witness :
    List.lookup "keywords" [("keywords", JVal.str "A, B ; C")] = some (JVal.str "A, B ; C") ∧
    extract_tags (.parsed (.obj [("keywords", JVal.str "A, B ; C")])) =
      [.str "A", .str "B", .str "C"] :=
  ⟨rfl, extract_tags_split_trim _ rfl⟩

/-- C7: the name from the specification scenario yields exactly the slug
`apple_walnut_cranberry_salad`, with no leading, trailing or doubled
underscore. -/
theorem slug_apple_walnut :
    slugOf "Apple & Walnut, Cranberry Salad!" = "apple_walnut_cranberry_salad" ∧
    (slugOf "Apple & Walnut, Cranberry Salad!").data.head? ≠ some '_' ∧
    (slugOf "Apple & Walnut, Cranberry Salad!").data.getLast? ≠ some '_' ∧
    findSub ['_', '_'] (slugOf "Apple & Walnut, Cranberry Salad!").data = none := by
  decide

/-- C3: in the per-URL trace of `import_recipes`, every delete call for a
search item whose name case-fold-equals the extracted name precedes the
`create/url` call; no create precedes any of those deletes. -/
theorem import_delete_before_create
    (name? : Option String) (tags : List String) (tagFilter : Option String)
    (searchItems : List Item) (url u : String) (d i j : Nat)
    (hc : (importStep name? tags tagFilter searchItems url)[i]? = some (.createFromUrl u))
    (hd : (importStep name? tags tagFilter searchItems url)[j]? = some (.apiDelete d)) :
    j < i := by
  cases name? with
  | none => simp [importStep] at hc
  | some name =>
    simp only [importStep] at hc hd
    by_cases hs : importSkip tags tagFilter
    · simp [hs] at hc
    · simp only [hs, if_false, Bool.false_eq_true] at hc hd
      have honly : ∀ e ∈ importDeletes name searchItems, ∃ r, e = MEv.apiDelete r := by
        intro e he
        rcases List.mem_map.1 he with ⟨it, _, rfl⟩
        exact ⟨it.id, rfl⟩
      have hi : ¬ i < (importDeletes name searchItems).length := by
        intro hlt
        rw [List.getElem?_append, if_pos hlt] at hc
        rcases honly _ (List.getElem?_mem hc) with ⟨r, hr⟩
        simp at hr
      have hj : j < (importDeletes name searchItems).length := by
        by_contra hge
        push_neg at hge
        rw [List.getElem?_append_right hge] at hd
        rcases hm : j - (importDeletes name searchItems).length with _ | m <;>
          rw [hm] at hd <;> simp at hd
      exact lt_of_lt_of_le hj (le_of_not_lt hi)

/-- Witness for the C3 theorem: a search returning one case-insensitive
name match produces the trace delete-then-create, and the delete index 0
precedes the create index 1. -/
theorem import_delete_before_create_witness :
    (importStep (some "Chili") [] none [⟨7, some "chili", none⟩] "u")[1]? =
        some (MEv.createFromUrl "u") ∧
    (importStep (some "Chili") [] none [⟨7, some "chili", none⟩] "u")[0]? =
        some (MEv.apiDelete 7) ∧
    (0 : Nat) < 1 :=
  ⟨by decide, by decide,
    import_delete_before_create (some "Chili") [] none [⟨7, some "chili", none⟩] "u" "u" 7 1 0
      (by decide) (by decide)⟩

/-- One unfolding of the pagination loop (the body of one `while True`
iteration). -/
theorem pageLoopF_succ (fuel : Nat) (remaining : List Item) (pageSize : Nat) :
    pageLoopF (fuel + 1) remaining pageSize =
      (let items := remaining.take pageSize
       if items.length = 0 then ([], [items.length])
       else if items.length < pageSize then (items, [items.length])
       else
         let r := pageLoopF fuel (remaining.drop pageSize) pageSize
         (items ++ r.1, items.length :: r.2)) := rfl

/-- C5: on any catalog of exactly 250 entries with page size 100, the
Tag-Purge pagination loop issues exactly 3 page requests returning 100,
100 and 50 entries (the short last page ends the loop), and the scanned
sequence is exactly the catalog — every entry scanned once. -/
theorem tag_purge_pagination_250 (cat : List Item) (h : cat.length = 250) :
    pageLoop cat 100 = (cat, [100, 100, 50]) := by
  have e3 : pageLoopF 249 (cat.drop 200) 100 = (cat.drop 200, [50]) := by
    rw [show (249 : Nat) = 248 + 1 from rfl, pageLoopF_succ]
    have hl : (cat.drop 200).length = 50 := by simp [h]
    have ht : (cat.drop 200).take 100 = cat.drop 200 :=
      List.take_of_length_le (by simp [hl])
    simp [ht, hl]
  have e2 : pageLoopF 250 (cat.drop 100) 100 = (cat.drop 100, [100, 50]) := by
    rw [show (250 : Nat) = 249 + 1 from rfl, pageLoopF_succ]
    have hl : ((cat.drop 100).take 100).length = 100 := by simp [h]
    have hdd : (cat.drop 100).drop 100 = cat.drop 200 := by
      rw [List.drop_drop]
    have key : (cat.drop 100).take 100 ++ cat.drop 200 = cat.drop 100 := by
      rw [← hdd, List.take_append_drop]
    simp [hl, hdd, e3, key]
  have hl1 : (cat.take 100).length = 100 := by simp [h]
  have key1 : cat.take 100 ++ cat.drop 100 = cat := List.take_append_drop 100 cat
  unfold pageLoop
  rw [h, pageLoopF_succ]
  simp [hl1, e2, key1]

set_option maxRecDepth 4000 in
/-- Witness for the C5 theorem on a concrete 250-entry catalog. -/
theorem tag_purge_pagination_250_witness :
    pageLoop (uniformCatalog 250) 100 = (uniformCatalog 250, [100, 100, 50]) :=
  tag_purge_pagination_250 _ (by simp [uniformCatalog])

/-- C8: when the model response is exactly the no-recipe sentinel,
`process_recipe_image` returns normally (no exception), its trace is a
single skip log line, and that trace contains no file-write event — zero
artifacts, for every JSON parser behaviour and image outcome. -/
theorem no_recipe_sentinel_no_artifacts (parse : String → Option JVal)
    (outcome : ImgOutcome) (stem : String) :
    process_recipe_image parse outcome stem "<no recipe>" =
      .ok [.logLine "no recipe detected"] ∧
    writesOf [.logLine "no recipe detected"] = [] :=
  ⟨rfl, rfl⟩

/-- C9: in every `generate_menu_image` trace — whatever the outcome of the
image call, including a raised exception — the prompt file write is the
first event, so it precedes the image-model call at any position `k`,
and a raised image call is logged rather than propagated. -/
theorem prompt_written_before_image_call (rn rd : String) (ri : List String)
    (rins : List JVal) (base : String) (outcome : ImgOutcome) (k : Nat) (p : String)
    (h : (generate_menu_image rn rd ri rins base outcome)[k]? = some (.callImageModel p)) :
    (generate_menu_image rn rd ri rins base outcome)[0]? = some (.writePromptFile base) ∧
    0 < k ∧
    (outcome = .raised →
      PEv.logLine "image generation failed: exception" ∈
        generate_menu_image rn rd ri rins base outcome) := by
  refine ⟨rfl, ?_, ?_⟩
  · cases k with
    | zero =>
      have h0 : (generate_menu_image rn rd ri rins base outcome)[0]? =
          some (.writePromptFile base) := rfl
      rw [h0] at h
      simp at h
    | succ m => exact Nat.succ_pos m
  · intro ho
    subst ho
    simp [generate_menu_image]

/-- Witness for the C9 theorem with a raised image call: the model call
sits at index 2, after the prompt write at index 0. -/
theorem prompt_written_before_image_call_witness :
    (generate_menu_image "X" "" [] [] "x" .raised)[2]? =
      some (PEv.callImageModel (generate_menu_image_prompt "X" "" [] [])) ∧
    ((generate_menu_image "X" "" [] [] "x" .raised)[0]? =
        some (PEv.writePromptFile "x") ∧
      0 < 2 ∧
      (ImgOutcome.raised = .raised →
        PEv.logLine "image generation failed: exception" ∈
          generate_menu_image "X" "" [] [] "x" .raised)) :=
  ⟨rfl, prompt_written_before_image_call "X" "" [] [] "x" .raised 2
    (generate_menu_image_prompt "X" "" [] []) rfl⟩

/-- C10: every entry the Tag-Purge scan phase marks as a victim has a
`tags` key, and the deletion-phase search for a tag whose canonicalized
name or slug equals the canonicalized target finds one — `next(...)`
never raises `StopIteration`. -/
theorem victims_have_matching_tag (catalog : List Item) (tag : String) (it : Item)
    (h : it ∈ victimsOf catalog tag) :
    it.tags ≠ none ∧ (matchingTag (_canon tag) it).isSome := by
  have hv : isVictim (_canon tag) it = true := List.of_mem_filter h
  rcases htags : it.tags with _ | ts
  · exfalso
    rw [isVictim, htags] at hv
    simp at hv
  · refine ⟨by simp [htags], ?_⟩
    rw [matchingTag, htags]
    simp only [Option.getD_some]
    rw [List.find?_isSome]
    rw [isVictim, htags] at hv
    simp only [Option.getD_some, List.any_eq_true, List.mem_append, List.mem_map,
      decide_eq_true_eq] at hv
    obtain ⟨t, ht, hcn⟩ := hv
    rcases ht with ⟨x, hx, rfl⟩ | ⟨x, hx, rfl⟩
    · exact ⟨x, hx, by simp [hcn]⟩
    · exact ⟨x, hx, by simp [hcn]⟩

/-- Witness for the C10 theorem on the scenario catalog: entry 1 is a
victim and the deletion-phase search succeeds on it. -/
theorem victims_have_matching_tag_witness :
    (⟨1, none, some [⟨some "Family", none⟩]⟩ : Item) ∈ victimsOf familyCatalog "Family" ∧
    ((⟨1, none, some [⟨some "Family", none⟩]⟩ : Item).tags ≠ none ∧
      (matchingTag (_canon "Family") ⟨1, none, some [⟨some "Family", none⟩]⟩).isSome) :=
  ⟨by decide, victims_have_matching_tag familyCatalog "Family" _ (by decide)⟩
